import Mathlib

/-!
Shallow embedding of the flow rendering and layout-scaling engine of the
sequence-react-native SDK (src/components/FlowRenderer.tsx and
src/components/FlowProgressBar.tsx), together with theorems checking the
natural-language specification against it.

Numeric values (positions, widths, scale factors) are modelled as rationals;
JavaScript array/string/number truthiness is modelled explicitly wherever the
source relies on it.
-/

namespace Sequence

/-- The `ContentBlockType` union from the SDK's type declarations. -/
inductive ContentBlockType
  | text
  | image
  | video
  | lottie
  | icon
  | button
  | spacer
  | divider
  | input
  | checklist
  | progress
  | slider
  | featureCard
  | scrollContainer
  | custom
deriving DecidableEq

/-- The `ScreenTransition` union from the SDK's type declarations. -/
inductive ScreenTransition
  | none
  | fade
  | slideLeft
  | slideRight
  | slideUp
  | slideDown
  | fadeSlideLeft
  | fadeSlideRight
  | scale
deriving DecidableEq

/-- A logical canvas position `{x, y}`. -/
structure Position where
  x : ℚ
  y : ℚ
deriving DecidableEq

/-- `BlockStyling.width` / `BlockStyling.height`: `number | 'auto' | 'full'`. -/
inductive StylingDim
  | num (v : ℚ)
  | auto
  | full
deriving DecidableEq

/-- The parts of `BlockStyling` the layout engine reads. -/
structure BlockStyling where
  width : Option StylingDim := Option.none
  height : Option StylingDim := Option.none
deriving DecidableEq

/-- The parts of a block's `content` payload the engine reads:
`fullWidth` on button content, `required`/`fieldName` on input content and
`minSelections`/`fieldName` on checklist content. -/
structure BlockContent where
  fullWidth : Option Bool := Option.none
  required : Option Bool := Option.none
  fieldName : Option String := Option.none
  minSelections : Option Int := Option.none
deriving DecidableEq

/-- The parts of `ContentBlock` the engine reads. -/
structure ContentBlock where
  id : String
  type : ContentBlockType
  order : Int := 0
  position : Option Position := Option.none
  visible : Option Bool := Option.none
  pinToBottom : Option Bool := Option.none
  styling : Option BlockStyling := Option.none
  content : BlockContent := {}
deriving DecidableEq

/-- The parts of `ScreenContent` the engine reads (`blocks`). -/
structure ScreenContent where
  blocks : Option (List ContentBlock) := Option.none
deriving DecidableEq

/-- The parts of `Screen` the engine reads. -/
structure Screen where
  id : String
  transition : Option ScreenTransition := Option.none
  content : ScreenContent := {}
deriving DecidableEq

/-- `ScreenTransitionConfig`: one entry of the from→to transition override table. -/
structure ScreenTransitionConfig where
  fromScreenId : String
  toScreenId : String
  transition : ScreenTransition
deriving DecidableEq

/-- The sub-range/skip configuration of `FlowProgressIndicator` read by
`FlowProgressBar` (visual fields such as colors are irrelevant here). -/
structure FlowProgressIndicator where
  startScreen : Option Int := Option.none
  endScreen : Option Int := Option.none
  skipScreens : Option (List Int) := Option.none
deriving DecidableEq

/-- A collected field value: `string | string[] | number`. -/
inductive Value
  | str (s : String)
  | arr (xs : List String)
  | num (n : ℚ)
deriving DecidableEq

/-- `CollectedData`: map from field name to value, as an association list. -/
def CollectedData := List (String × Value)

/-- `collectedData[fieldName]` lookup (`undefined` becomes `Option.none`). -/
def lookupData (data : CollectedData) (fieldName : String) : Option Value :=
  match data with
  | [] => Option.none
  | (k, v) :: rest => if k = fieldName then Option.some v else lookupData rest fieldName

/-- The screens plus the optional transition override table handed to `FlowRenderer`. -/
structure FlowConfig where
  screens : List Screen
  transitions : Option (List ScreenTransitionConfig) := Option.none
deriving DecidableEq

/-! ## Coordinate scaler (FlowRenderer.tsx lines 33-39, 456-462) -/

/-- `EDITOR_CANVAS_WIDTH = DESIGN_CANVAS.width` (393). -/
def EDITOR_CANVAS_WIDTH : ℚ := 393

/-- `EDITOR_CANVAS_HEIGHT = DESIGN_CANVAS.height` (852). -/
def EDITOR_CANVAS_HEIGHT : ℚ := 852

/-- `OLD_CANVAS_WIDTH` (320), the legacy canvas width. -/
def OLD_CANVAS_WIDTH : ℚ := 320

/-- `OLD_CANVAS_HEIGHT` (693), the legacy canvas height. -/
def OLD_CANVAS_HEIGHT : ℚ := 693

/-- `uniformScale = SCREEN_WIDTH / EDITOR_CANVAS_WIDTH`, as a function of the
device viewport width. -/
def uniformScale (screenWidth : ℚ) : ℚ := screenWidth / EDITOR_CANVAS_WIDTH

/-- `yScale = SCREEN_HEIGHT / EDITOR_CANVAS_HEIGHT`, as a function of the
device viewport height. -/
def yScale (screenHeight : ℚ) : ℚ := screenHeight / EDITOR_CANVAS_HEIGHT

/-- `textMaxWidth = 280 * uniformScale`. -/
def textMaxWidth (screenWidth : ℚ) : ℚ := 280 * uniformScale screenWidth

/-- `fullWidthMaxWidth = (EDITOR_CANVAS_WIDTH - 48) * uniformScale`. -/
def fullWidthMaxWidth (screenWidth : ℚ) : ℚ :=
  (EDITOR_CANVAS_WIDTH - 48) * uniformScale screenWidth

/-- The guard `block.styling?.width && typeof block.styling.width === 'number'`:
yields the numeric styling width when it is present, numeric and truthy
(`0` is falsy in JavaScript). -/
def stylingNumWidth (block : ContentBlock) : Option ℚ :=
  match block.styling with
  | Option.some st =>
    match st.width with
    | Option.some (StylingDim.num w) => if w = 0 then Option.none else Option.some w
    | _ => Option.none
  | Option.none => Option.none

/-- The guard `block.styling?.height && typeof block.styling.height === 'number'`. -/
def stylingNumHeight (block : ContentBlock) : Option ℚ :=
  match block.styling with
  | Option.some st =>
    match st.height with
    | Option.some (StylingDim.num h) => if h = 0 then Option.none else Option.some h
    | _ => Option.none
  | Option.none => Option.none

/-- `getBlockMaxWidth` (FlowRenderer.tsx lines 498-517): checklist, input,
progress, divider and slider blocks get `fullWidthMaxWidth`; every other block
gets the numeric styling width scaled by `uniformScale` when set, else
`textMaxWidth`. -/
def getBlockMaxWidth (screenWidth : ℚ) (block : ContentBlock) : ℚ :=
  match block.type with
  | ContentBlockType.checklist => fullWidthMaxWidth screenWidth
  | ContentBlockType.input => fullWidthMaxWidth screenWidth
  | ContentBlockType.progress => fullWidthMaxWidth screenWidth
  | ContentBlockType.divider => fullWidthMaxWidth screenWidth
  | ContentBlockType.slider => fullWidthMaxWidth screenWidth
  | _ =>
    match stylingNumWidth block with
    | Option.some w => w * uniformScale screenWidth
    | Option.none => textMaxWidth screenWidth

/-! ## Legacy position migration (FlowRenderer.tsx lines 465-485) -/

/-- JavaScript `Math.round`: round half toward positive infinity. -/
def jsRound (q : ℚ) : ℤ := ⌊q + 1/2⌋

/-- `needsMigration`: at least one block declares a position and every block
that does lies within the old 320x693 canvas bounds. -/
def needsMigration (blocks : List ContentBlock) : Bool :=
  let blocksWithPositions := blocks.filter (fun b => b.position.isSome)
  decide (0 < blocksWithPositions.length) &&
    blocksWithPositions.all (fun b =>
      match b.position with
      | Option.some p => decide (p.x ≤ OLD_CANVAS_WIDTH) && decide (p.y ≤ OLD_CANVAS_HEIGHT)
      | Option.none => true)

/-- `migratePosition`: when migration applies, remap a position from the old
canvas to the new one, rounding each coordinate. -/
def migratePosition (needs : Bool) (pos : Position) : Position :=
  if needs then
    { x := (jsRound (pos.x * (EDITOR_CANVAS_WIDTH / OLD_CANVAS_WIDTH)) : ℚ),
      y := (jsRound (pos.y * (EDITOR_CANVAS_HEIGHT / OLD_CANVAS_HEIGHT)) : ℚ) }
  else pos

/-! ## Canvas-based block placement (FlowRenderer.tsx lines 520-612) -/

/-- `centerX = 24`, the left inset of the default position. -/
def centerX : ℚ := 24

/-- The default position for a block without a stored position: icons are
horizontally centered, everything else left-aligned at `centerX`; vertical
stacking at 70 units per block index starting at 150. -/
def defaultPosition (type : ContentBlockType) (index : Nat) : Position :=
  { x := if type = ContentBlockType.icon then EDITOR_CANVAS_WIDTH / 2 - 40 else centerX,
    y := 150 + (index : ℚ) * 70 }

/-- The logical position used for a regular block: stored position or default,
then migrated when the screen needs migration. -/
def blockLogicalPos (needs : Bool) (block : ContentBlock) (index : Nat) : Position :=
  migratePosition needs (block.position.getD (defaultPosition block.type index))

/-- The placement computed for one block: device coordinates of the positioned
container, maximum render width and explicit styling dimensions. -/
structure Placement where
  left : ℚ
  top : ℚ
  maxWidth : ℚ
  width : Option ℚ
  height : Option ℚ
deriving DecidableEq

/-- Placement of one regular block (FlowRenderer.tsx lines 545-569):
`scaledX = pos.x * uniformScale`, `scaledY = pos.y * yScale`, max width from
`getBlockMaxWidth`, explicit styling dimensions scaled by `uniformScale`. -/
def placeBlock (screenWidth screenHeight : ℚ) (needs : Bool)
    (block : ContentBlock) (index : Nat) : Placement :=
  let pos := blockLogicalPos needs block index
  { left := pos.x * uniformScale screenWidth,
    top := pos.y * yScale screenHeight,
    maxWidth := getBlockMaxWidth screenWidth block,
    width := (stylingNumWidth block).map (fun w => w * uniformScale screenWidth),
    height := (stylingNumHeight block).map (fun h => h * uniformScale screenWidth) }

/-- `sortedBlocks`: visible blocks (`visible !== false`) stably sorted by `order`. -/
def sortedVisible (blocks : List ContentBlock) : List ContentBlock :=
  (blocks.filter (fun b => b.visible ≠ Option.some false)).mergeSort
    (fun a b => a.order ≤ b.order)

/-- The placements of the regular (non-pinned) blocks of a screen, keyed by
block id, in render order. -/
def renderPlacements (screenWidth screenHeight : ℚ) (screen : Screen) :
    List (String × Placement) :=
  match screen.content.blocks with
  | Option.none => []
  | Option.some blocks =>
    let needs := needsMigration blocks
    let regular := (sortedVisible blocks).filter (fun b => b.pinToBottom ≠ Option.some true)
    regular.enum.map (fun p => (p.2.id, placeBlock screenWidth screenHeight needs p.2 p.1))

/-! ## Validation engine (FlowRenderer.tsx lines 299-339) -/

/-- JavaScript truthiness of an optional boolean (`undefined` is falsy). -/
def truthyOptBool : Option Bool → Bool
  | Option.some b => b
  | Option.none => false

/-- JavaScript truthiness of an optional string (`undefined` and `''` are falsy). -/
def truthyOptStr : Option String → Bool
  | Option.some s => !(s == "")
  | Option.none => false

/-- JavaScript truthiness of a collected value (`''` and `0` are falsy,
arrays are always truthy). -/
def truthyValue : Value → Bool
  | Value.str s => !(s == "")
  | Value.arr _ => true
  | Value.num n => !(n == 0)

/-- The `isEmpty` test of the required-input rule: `undefined`, a
whitespace-only string or an empty array. -/
def isEmptyValue : Option Value → Bool
  | Option.none => true
  | Option.some (Value.str s) => s.trim == ""
  | Option.some (Value.arr xs) => xs.isEmpty
  | Option.some (Value.num _) => false

/-- `Array.isArray(value) ? value.length : value ? 1 : 0`. -/
def selectionCount : Option Value → Nat
  | Option.some (Value.arr xs) => xs.length
  | Option.some v => if truthyValue v then 1 else 0
  | Option.none => 0

/-- The error contributed by an input block:
`if (inputContent.required && inputContent.fieldName)` then the field is
invalid when its collected value is empty. -/
def inputError (data : CollectedData) (c : BlockContent) : List String :=
  match c.fieldName with
  | Option.some f =>
    if truthyOptBool c.required && !(f == "") then
      if isEmptyValue (lookupData data f) then [f] else []
    else []
  | Option.none => []

/-- The error contributed by a checklist block:
`if (minSelections && minSelections > 0 && fieldName)` then the field is
invalid when the selection count is below `minSelections`. -/
def checklistError (data : CollectedData) (c : BlockContent) : List String :=
  match c.minSelections, c.fieldName with
  | Option.some m, Option.some f =>
    if !(m == 0) && decide (0 < m) && !(f == "") then
      if decide ((selectionCount (lookupData data f) : Int) < m) then [f] else []
    else []
  | _, _ => []

/-- The errors contributed by one block of the current screen. -/
def blockErrors (data : CollectedData) (block : ContentBlock) : List String :=
  (if block.type = ContentBlockType.input then inputError data block.content else []) ++
    (if block.type = ContentBlockType.checklist then checklistError data block.content else [])

/-- The error list accumulated over a screen's blocks, in block order. -/
def validateBlocks (blocks : List ContentBlock) (data : CollectedData) : List String :=
  match blocks with
  | [] => []
  | b :: bs => blockErrors data b ++ validateBlocks bs data

/-- `screens[i]` indexing (negative or out-of-range yields `undefined`). -/
def getScreen (screens : List Screen) (i : Int) : Option Screen :=
  if i < 0 then Option.none else screens[i.toNat]?

/-- `currentScreen?.content?.blocks`. -/
def currentBlocks (screens : List Screen) (i : Int) : Option (List ContentBlock) :=
  (getScreen screens i).bind (fun s => s.content.blocks)

/-- `validateCurrentScreen`: returns the replacement for `validationErrors`
(`Option.none` when the early `return true` fires without touching the error
set, i.e. when the current screen has no blocks array) and the boolean result. -/
def validateCurrentScreen (screens : List Screen) (data : CollectedData) (i : Int) :
    Option (List String) × Bool :=
  match currentBlocks screens i with
  | Option.none => (Option.none, true)
  | Option.some blocks =>
    let errors := validateBlocks blocks data
    (Option.some errors, errors.isEmpty)

/-! ## Progress indicator (FlowProgressBar.tsx lines 20-44) -/

/-- Position of the first occurrence of `a` in `l`, if present. -/
def posIn (a : Int) : List Int → Option Nat
  | [] => Option.none
  | x :: xs => if x = a then Option.some 0 else (posIn a xs).map (fun n => n + 1)

/-- JavaScript `Array.prototype.indexOf`: the position, or `-1` when absent. -/
def jsIndexOf (a : Int) (l : List Int) : Int :=
  match posIn a l with
  | Option.some n => n
  | Option.none => -1

/-- `effectiveScreens`: the in-range indices `[startScreen, endScreen]`
(defaults `0` and `totalScreens - 1`) with `skipScreens` removed. -/
def effectiveScreensList (totalScreens : Int) (cfg : FlowProgressIndicator) : List Int :=
  let effectiveStart := cfg.startScreen.getD 0
  let effectiveEnd := cfg.endScreen.getD (totalScreens - 1)
  let skip := cfg.skipScreens.getD []
  (((List.range (effectiveEnd - effectiveStart + 1).toNat).map
      (fun (i : Nat) => (i : Int) + effectiveStart)).filter (fun i => !(skip.contains i)))

/-- The progress fraction computed by `FlowProgressBar`:
`effectiveTotal > 1 ? Math.max(0, currentEffectiveIndex) / (effectiveTotal - 1) : 1`. -/
def flowProgress (currentIndex totalScreens : Int) (cfg : FlowProgressIndicator) : ℚ :=
  let effectiveScreens := effectiveScreensList totalScreens cfg
  let effectiveTotal : Int := effectiveScreens.length
  let currentEffectiveIndex : Int := jsIndexOf currentIndex effectiveScreens
  if 1 < effectiveTotal then
    ((max 0 currentEffectiveIndex : Int) : ℚ) / ((effectiveTotal : ℚ) - 1)
  else 1

/-! ## Transition resolution (FlowRenderer.tsx lines 93-110) -/

/-- The predicate of the override-table lookup:
`t.fromScreenId === fromScreen?.id && t.toScreenId === toScreen?.id`
(comparison with `undefined` is false). -/
def transitionMatches (fromScreen toScreen : Option Screen)
    (t : ScreenTransitionConfig) : Bool :=
  (match fromScreen with
   | Option.some s => t.fromScreenId == s.id
   | Option.none => false) &&
    (match toScreen with
     | Option.some s => t.toScreenId == s.id
     | Option.none => false)

/-- `transitions.find(...)` guarded by the table being provided. -/
def overrideEntry (transitions : Option (List ScreenTransitionConfig))
    (fromScreen toScreen : Option Screen) : Option ScreenTransitionConfig :=
  match transitions with
  | Option.some ts => ts.find? (transitionMatches fromScreen toScreen)
  | Option.none => Option.none

/-- `getTransition`: the override entry's transition when one matches,
otherwise `fromScreen?.transition || 'fade'`. -/
def getTransition (cfg : FlowConfig) (fromIndex toIndex : Int) : ScreenTransition :=
  let fromScreen := getScreen cfg.screens fromIndex
  let toScreen := getScreen cfg.screens toIndex
  match overrideEntry cfg.transitions fromScreen toScreen with
  | Option.some config => config.transition
  | Option.none =>
    match fromScreen with
    | Option.some s => s.transition.getD ScreenTransition.fade
    | Option.none => ScreenTransition.fade

/-! ## Flow controller (FlowRenderer.tsx lines 342-411) -/

/-- Externally observable effects of the controller: `screen_completed`
telemetry, the transition animation request, the completion callback and
custom-action forwarding. -/
inductive FlowEvent
  | screenCompleted (screenId : Option String)
  | animate (transition : ScreenTransition) (isForward : Bool)
  | completed
  | customAction (identifier : String)
deriving DecidableEq

/-- The controller state: `currentIndex`, the validation-error set (kept as the
pushed list of field names) and the log of emitted effects. -/
structure FlowState where
  currentIndex : Int
  validationErrors : List String := []
  log : List FlowEvent := []
deriving DecidableEq

/-- Apply the `setValidationErrors` effect of `validateCurrentScreen`, when any. -/
def applyValidation (st : FlowState) (r : Option (List String)) : FlowState :=
  match r with
  | Option.some errors => { st with validationErrors := errors }
  | Option.none => st

/-- `navigateTo`: no-op outside `[0, screens.length)`; otherwise emit
`screen_completed` for the outgoing screen, set the index and start the
resolved transition animation. -/
def navigateTo (cfg : FlowConfig) (st : FlowState) (targetIndex : Int) : FlowState :=
  if targetIndex < 0 ∨ (cfg.screens.length : Int) ≤ targetIndex then st
  else
    let isForward : Bool := decide (st.currentIndex < targetIndex)
    let transition := getTransition cfg st.currentIndex targetIndex
    let outgoingId := (getScreen cfg.screens st.currentIndex).map Screen.id
    { st with
      currentIndex := targetIndex,
      log := st.log ++ [FlowEvent.screenCompleted outgoingId,
        FlowEvent.animate transition isForward] }

/-- The `ButtonAction` union. -/
inductive ButtonAction
  | next
  | previous
  | screen (screenId : String)
  | complete
  | custom (identifier : String)
deriving DecidableEq

/-- The guard `action.type === 'next' || action.type === 'complete' ||
action.type === 'screen'` of `handleAction`'s validation block. -/
def needsValidationFor : ButtonAction → Bool
  | ButtonAction.next => true
  | ButtonAction.complete => true
  | ButtonAction.screen _ => true
  | _ => false

/-- The `switch (action.type)` body of `handleAction`, applied to the state
after the validation block ran. -/
def dispatchAction (cfg : FlowConfig) (st1 : FlowState) : ButtonAction → FlowState
  | ButtonAction.next =>
    if st1.currentIndex < (cfg.screens.length : Int) - 1 then
      navigateTo cfg st1 (st1.currentIndex + 1)
    else { st1 with log := st1.log ++ [FlowEvent.completed] }
  | ButtonAction.previous =>
    if 0 < st1.currentIndex then navigateTo cfg st1 (st1.currentIndex - 1) else st1
  | ButtonAction.screen screenId =>
    match cfg.screens.findIdx? (fun s => s.id == screenId) with
    | Option.some targetIndex => navigateTo cfg st1 (targetIndex : Int)
    | Option.none => st1
  | ButtonAction.complete => { st1 with log := st1.log ++ [FlowEvent.completed] }
  | ButtonAction.custom identifier =>
    { st1 with log := st1.log ++ [FlowEvent.customAction identifier] }

/-- `handleAction`: `next`, `complete` and `screen` actions validate the
current screen first (recording the error-set update) and stop when
validation fails; then the switch dispatches on the action kind. -/
def handleAction (cfg : FlowConfig) (data : CollectedData) (st : FlowState)
    (action : ButtonAction) : FlowState :=
  let v := validateCurrentScreen cfg.screens data st.currentIndex
  if needsValidationFor action && !v.2 then applyValidation st v.1
  else
    dispatchAction cfg
      (if needsValidationFor action then applyValidation st v.1 else st) action

/-- One external entry into the controller: a button action or a direct
`navigateTo` call. -/
inductive FlowCall
  | act (action : ButtonAction)
  | nav (targetIndex : Int)
deriving DecidableEq

/-- Run one call against the state. -/
def stepCall (cfg : FlowConfig) (data : CollectedData) (st : FlowState) :
    FlowCall → FlowState
  | FlowCall.act a => handleAction cfg data st a
  | FlowCall.nav t => navigateTo cfg st t

/-- Run a sequence of calls against the state. -/
def runCalls (cfg : FlowConfig) (data : CollectedData) (st : FlowState) :
    List FlowCall → FlowState
  | [] => st
  | c :: cs => runCalls cfg data (stepCall cfg data st c) cs

/-! ## Spec-side definitions, for comparison with the code -/

/-- The layout-width rule as the spec words it: an explicit numeric
`styling.width` wins over both categories; a button whose content declares
`fullWidth !== false` counts as full-width; the fixed full-width set gets
`(Wc - 48) * uniformScale`; everything else `280 * uniformScale`. -/
def specClaimedMaxWidth (screenWidth : ℚ) (block : ContentBlock) : ℚ :=
  match block.styling with
  | Option.some st =>
    match st.width with
    | Option.some (StylingDim.num w) => w * uniformScale screenWidth
    | _ => specClaimedCategoryWidth screenWidth block
  | Option.none => specClaimedCategoryWidth screenWidth block
where
  /-- The category width of the spec's claimed rule, without the override. -/
  specClaimedCategoryWidth (screenWidth : ℚ) (block : ContentBlock) : ℚ :=
    if block.type ∈ [ContentBlockType.checklist, ContentBlockType.input,
        ContentBlockType.progress, ContentBlockType.divider, ContentBlockType.slider] ∨
        (block.type = ContentBlockType.button ∧ block.content.fullWidth ≠ Option.some false) then
      (EDITOR_CANVAS_WIDTH - 48) * uniformScale screenWidth
    else 280 * uniformScale screenWidth

/-- The amended layout-width rule: the fixed full-width set always gets
`(Wc - 48) * uniformScale` (no override applies to it); every other block,
buttons included and regardless of `fullWidth`, gets its truthy numeric
`styling.width` scaled by `uniformScale` when set, else `280 * uniformScale`. -/
def specAmendedMaxWidth (screenWidth : ℚ) (block : ContentBlock) : ℚ :=
  if block.type ∈ [ContentBlockType.checklist, ContentBlockType.input,
      ContentBlockType.progress, ContentBlockType.divider, ContentBlockType.slider] then
    (EDITOR_CANVAS_WIDTH - 48) * uniformScale screenWidth
  else
    match stylingNumWidth block with
    | Option.some w => w * uniformScale screenWidth
    | Option.none => 280 * uniformScale screenWidth

/-- The migration remap formula as the spec words it:
`x' = round(x * 393/320)`, `y' = round(y * 852/693)`. -/
def specRemap (p : Position) : Position :=
  { x := (jsRound (p.x * (393 / 320)) : ℚ), y := (jsRound (p.y * (852 / 693)) : ℚ) }

/-- The selection count as the spec words it: array length for an array, `1`
for any bare scalar, `0` when absent. -/
def claimedSelectionCount : Option Value → Nat
  | Option.some (Value.arr xs) => xs.length
  | Option.some _ => 1
  | Option.none => 0

/-! ## Concrete fixtures -/

/-- A button block declaring `fullWidth: true` and no styling. -/
def buttonFullWidthBlock : ContentBlock :=
  { id := "b1", type := ContentBlockType.button,
    content := { fullWidth := Option.some true } }

/-- A checklist block with explicit `styling.width = 100`. -/
def checklistWidthBlock : ContentBlock :=
  { id := "c1", type := ContentBlockType.checklist,
    styling := Option.some { width := Option.some (StylingDim.num 100) } }

/-- A text block positioned inside the old 320x693 canvas. -/
def blkA : ContentBlock :=
  { id := "a", type := ContentBlockType.text, position := Option.some ⟨100, 100⟩ }

/-- A text block without a stored position. -/
def blkB : ContentBlock := { id := "b", type := ContentBlockType.text, order := 1 }

/-- A screen whose every positioned block fits the old canvas, so that
migration applies, next to a block without a position. -/
def migBlocks : List ContentBlock := [blkA, blkB]

/-- Progress configuration: range `[0, 3]`, screen `2` skipped. -/
def cfgC3 : FlowProgressIndicator :=
  { startScreen := Option.some 0, endScreen := Option.some 3,
    skipScreens := Option.some [2] }

/-- A checklist block requiring at least one selection on field `f`. -/
def chkBlock : ContentBlock :=
  { id := "c", type := ContentBlockType.checklist,
    content := { minSelections := Option.some 1, fieldName := Option.some "f" } }

/-- Collected data binding field `f` to the bare scalar `0`. -/
def dataC4 : CollectedData := [("f", Value.num 0)]

/-- A required input block on field `email`. -/
def inputBlk : ContentBlock :=
  { id := "i", type := ContentBlockType.input,
    content := { required := Option.some true, fieldName := Option.some "email" } }

/-- A screen holding the required input block. -/
def inputScreen : Screen :=
  { id := "s0", content := { blocks := Option.some [inputBlk] } }

/-- A flow with one screen that fails validation while `email` is uncollected. -/
def cfgV : FlowConfig := { screens := [inputScreen] }

/-- A state on that flow carrying a stale error from an earlier attempt. -/
def stV : FlowState := { currentIndex := 0, validationErrors := ["old"] }

/-- A two-screen flow. -/
def cfg8 : FlowConfig := { screens := [{ id := "a" }, { id := "b" }] }

/-- The initial state on the two-screen flow. -/
def st8 : FlowState := { currentIndex := 0 }

/-- A call sequence mixing out-of-bounds jumps with a normal `next`. -/
def calls8 : List FlowCall :=
  [FlowCall.nav 5, FlowCall.act ButtonAction.next, FlowCall.nav (-1)]

/-- A screen with no blocks array. -/
def plainScreen : Screen := { id := "s0" }

/-- A flow holding only the blockless screen. -/
def cfgOne : FlowConfig := { screens := [plainScreen] }

/-- A state on the blockless flow still carrying a validation error. -/
def stC9 : FlowState := { currentIndex := 0, validationErrors := ["email"] }

/-- A clean state on the blockless flow. -/
def st10 : FlowState := { currentIndex := 0 }

/-- Screen `A`, declaring default transition `fade`. -/
def screenA : Screen := { id := "A", transition := Option.some ScreenTransition.fade }

/-- Screen `B`, no declared transition. -/
def screenB : Screen := { id := "B" }

/-- The override-table entry mapping `A -> B` to `scale`. -/
def overrideAB : ScreenTransitionConfig :=
  { fromScreenId := "A", toScreenId := "B", transition := ScreenTransition.scale }

/-- The two-screen flow with the `A -> B` override installed. -/
def cfgD : FlowConfig :=
  { screens := [screenA, screenB], transitions := Option.some [overrideAB] }

/-! ## Claim C1: block layout classifier -/

/-- Claim C1 counterexample: `getBlockMaxWidth` gives a `fullWidth: true`
button the content width (280 at scale 1), not the full width (345) the claim
dictates, and gives a checklist with explicit `styling.width = 100` the full
width (345), not the overridden 100 the claim dictates. -/
theorem c1_block_max_width_counterexample :
  getBlockMaxWidth 393 buttonFullWidthBlock = 280 ∧
  specClaimedMaxWidth 393 buttonFullWidthBlock = 345 ∧
  getBlockMaxWidth 393 checklistWidthBlock = 345 ∧
  specClaimedMaxWidth 393 checklistWidthBlock = 100 := by
  refine ⟨?_, ?_, ?_, ?_⟩ <;>
    norm_num [getBlockMaxWidth, specClaimedMaxWidth, specClaimedMaxWidth.specClaimedCategoryWidth,
      buttonFullWidthBlock, checklistWidthBlock, stylingNumWidth, fullWidthMaxWidth,
      textMaxWidth, uniformScale, EDITOR_CANVAS_WIDTH]

/-- Claim C1 (amended): the layout classifier gives checklist, input,
progress, divider and slider blocks `(Wc - 48) * uniformScale`
unconditionally; every other block — a button included, regardless of its
`fullWidth` flag — gets its truthy numeric `styling.width` scaled by
`uniformScale` when set, else `280 * uniformScale`. -/
theorem c1_block_max_width_amended (screenWidth : ℚ) (block : ContentBlock) :
  getBlockMaxWidth screenWidth block = specAmendedMaxWidth screenWidth block := by
  cases hty : block.type <;>
    simp [getBlockMaxWidth, specAmendedMaxWidth, hty, fullWidthMaxWidth, textMaxWidth]

/-! ## Claim C2: legacy position migration -/

/-- Claim C2 counterexample: on a screen that qualifies for migration, a
block without a stored position does not keep its default position
`(24, 220)` — the default is remapped to `(29, 270)` as well. -/
theorem c2_migration_counterexample :
  needsMigration migBlocks = true ∧
  blockLogicalPos (needsMigration migBlocks) blkB 1 = ⟨29, 270⟩ ∧
  defaultPosition blkB.type 1 = ⟨24, 220⟩ ∧
  blockLogicalPos (needsMigration migBlocks) blkB 1 ≠ defaultPosition blkB.type 1 := by
  have hmig : needsMigration migBlocks = true := by decide
  have hdef : defaultPosition ContentBlockType.text 1 = ⟨24, 220⟩ := by
    rw [defaultPosition, if_neg (show ¬(ContentBlockType.text = ContentBlockType.icon) by decide)]
    norm_num [centerX, Position.mk.injEq]
  have hty : blkB.type = ContentBlockType.text := rfl
  have hpos : blockLogicalPos (needsMigration migBlocks) blkB 1 = ⟨29, 270⟩ := by
    rw [blockLogicalPos, hmig]
    have hgd : blkB.position.getD (defaultPosition blkB.type 1) = ⟨24, 220⟩ := by
      rw [show blkB.position = Option.none from rfl, Option.getD_none, hty, hdef]
    rw [hgd]
    norm_num [migratePosition, jsRound, EDITOR_CANVAS_WIDTH, OLD_CANVAS_WIDTH,
      EDITOR_CANVAS_HEIGHT, OLD_CANVAS_HEIGHT, Position.mk.injEq]
  refine ⟨hmig, hpos, by rw [hty]; exact hdef, ?_⟩
  rw [hpos, hty, hdef]
  simp [Position.mk.injEq]

/-- Claim C2 (amended): migration applies only if every block with a stored
position fits the old 320x693 bounds; a stored position is remapped by
`x' = round(x * 393/320)`, `y' = round(y * 852/693)` exactly when migration
applies; and a block without a stored position gets the default-position
algorithm's result, which is remapped by the same formula whenever the
screen qualifies for migration (defaults are not exempt). -/
theorem c2_migration_amended (blocks : List ContentBlock) (block : ContentBlock)
    (index : Nat) (p : Position) :
  (needsMigration blocks = true → ∀ b ∈ blocks, ∀ q : Position, b.position = Option.some q →
      q.x ≤ 320 ∧ q.y ≤ 693) ∧
  (block.position = Option.some p →
      blockLogicalPos (needsMigration blocks) block index =
        if needsMigration blocks then specRemap p else p) ∧
  (block.position = Option.none →
      blockLogicalPos (needsMigration blocks) block index =
        if needsMigration blocks then specRemap (defaultPosition block.type index)
        else defaultPosition block.type index) := by
  have hmp : ∀ q : Position, migratePosition true q = specRemap q := fun q => rfl
  refine ⟨?_, ?_, ?_⟩
  · intro h b hb q hq
    have hmem : b ∈ blocks.filter (fun b => b.position.isSome) := by
      rw [List.mem_filter]
      exact ⟨hb, by rw [hq]; rfl⟩
    simp only [needsMigration, Bool.and_eq_true, List.all_eq_true] at h
    have h2 := h.2 b hmem
    rw [hq] at h2
    simp only [Bool.and_eq_true, decide_eq_true_eq, OLD_CANVAS_WIDTH, OLD_CANVAS_HEIGHT] at h2
    exact h2
  · intro hq
    cases hmig : needsMigration blocks
    · simp [blockLogicalPos, hq, hmig, migratePosition]
    · simp [blockLogicalPos, hq, hmig, hmp]
  · intro hq
    cases hmig : needsMigration blocks
    · simp [blockLogicalPos, hq, hmig, migratePosition]
    · simp [blockLogicalPos, hq, hmig, hmp]

/-- Claim C2 amended, witnessed at the concrete migrating screen: block `a`
stores position `(100, 100)` and is remapped by the documented formula. -/
theorem c2_migration_amended_witness :
  blkA.position = Option.some ⟨100, 100⟩ ∧
  blockLogicalPos (needsMigration migBlocks) blkA 0 =
    (if needsMigration migBlocks then specRemap ⟨100, 100⟩ else (⟨100, 100⟩ : Position)) :=
  ⟨rfl, (c2_migration_amended migBlocks blkA 0 ⟨100, 100⟩).2.1 rfl⟩

/-! ## Claim C6: coordinate scaler -/

/-- Claim C6: for every logical block position the device position is exactly
`(x * Wd/393, y * Hd/852)`, and all size-like outputs of the placement (max
width, explicit width and height) are independent of the viewport height —
they use the width-based `uniformScale`, never `yScale`. -/
theorem c6_coordinate_scaler (screenWidth screenHeight screenHeight2 : ℚ) (needs : Bool)
    (block : ContentBlock) (index : Nat) :
  (placeBlock screenWidth screenHeight needs block index).left =
      (blockLogicalPos needs block index).x * (screenWidth / 393) ∧
  (placeBlock screenWidth screenHeight needs block index).top =
      (blockLogicalPos needs block index).y * (screenHeight / 852) ∧
  (placeBlock screenWidth screenHeight needs block index).maxWidth =
      (placeBlock screenWidth screenHeight2 needs block index).maxWidth ∧
  (placeBlock screenWidth screenHeight needs block index).width =
      (placeBlock screenWidth screenHeight2 needs block index).width ∧
  (placeBlock screenWidth screenHeight needs block index).height =
      (placeBlock screenWidth screenHeight2 needs block index).height := by
  refine ⟨?_, ?_, rfl, rfl, rfl⟩ <;>
    simp [placeBlock, uniformScale, yScale, EDITOR_CANVAS_WIDTH, EDITOR_CANVAS_HEIGHT]

/-! ## Claim C3: progress fraction -/

/-- A member of the list is found by `posIn`. -/
theorem posIn_isSome_of_mem : ∀ {l : List Int} {a : Int}, a ∈ l → ∃ n, posIn a l = Option.some n
  | [], a, h => absurd h (List.not_mem_nil a)
  | x :: xs, a, h => by
    by_cases hx : x = a
    · exact ⟨0, by simp [posIn, hx]⟩
    · have h' : a ∈ xs := by
        rcases List.mem_cons.1 h with h1 | h1
        · exact absurd h1.symm hx
        · exact h1
      rcases posIn_isSome_of_mem h' with ⟨n, hn⟩
      exact ⟨n + 1, by simp [posIn, hx, hn]⟩

/-- A non-member of the list is not found by `posIn`. -/
theorem posIn_eq_none_of_not_mem : ∀ {l : List Int} {a : Int}, a ∉ l → posIn a l = Option.none
  | [], a, _ => rfl
  | x :: xs, a, h => by
    have hx : ¬(x = a) := fun e => h (by rw [← e]; exact List.mem_cons_self x xs)
    have h2 : a ∉ xs := fun hm => h (List.mem_cons_of_mem _ hm)
    simp [posIn, hx, posIn_eq_none_of_not_mem h2]

/-- On a strictly increasing list, positions respect the order of members. -/
theorem posIn_le : ∀ (l : List Int), l.Pairwise (· < ·) → ∀ a b : Int, a ∈ l → b ∈ l → a ≤ b →
    ∃ i j, posIn a l = Option.some i ∧ posIn b l = Option.some j ∧ i ≤ j
  | [], _, a, _, ha, _, _ => absurd ha (List.not_mem_nil a)
  | x :: xs, hs, a, b, ha, hb, hab => by
    rcases List.pairwise_cons.1 hs with ⟨hx, htail⟩
    by_cases hxa : x = a
    · rcases posIn_isSome_of_mem hb with ⟨j, hj⟩
      exact ⟨0, j, by simp [posIn, hxa], hj, Nat.zero_le j⟩
    · have ha' : a ∈ xs := by
        rcases List.mem_cons.1 ha with h1 | h1
        · exact absurd h1.symm hxa
        · exact h1
      have hxb : ¬(x = b) := by
        intro e
        have hlt : x < a := hx a ha'
        omega
      have hb' : b ∈ xs := by
        rcases List.mem_cons.1 hb with h1 | h1
        · exact absurd h1.symm hxb
        · exact h1
      rcases posIn_le xs htail a b ha' hb' hab with ⟨i, j, hi, hj, hij⟩
      exact ⟨i + 1, j + 1, by simp [posIn, hxa, hi], by simp [posIn, hxb, hj],
        Nat.succ_le_succ hij⟩

/-- The filtered in-range index list is strictly increasing. -/
theorem effectiveScreensList_pairwise (totalScreens : Int) (cfg : FlowProgressIndicator) :
    (effectiveScreensList totalScreens cfg).Pairwise (· < ·) := by
  unfold effectiveScreensList
  exact ((List.pairwise_lt_range _).map _
    (fun a b hab => add_lt_add_right (by exact_mod_cast hab) _)).filter _

/-- Claim C3 counterexample: with range `[0, 3]` and screen `2` skipped, the
skipped `currentIndex = 2` yields progress `0` — not the position of the
largest preceding filtered index (which would give `1/2`) — so the fraction
drops from `1/2` at index `1` to `0` at index `2` and is not monotone. -/
theorem c3_progress_counterexample :
  flowProgress 1 4 cfgC3 = 1/2 ∧
  flowProgress 2 4 cfgC3 = 0 ∧
  ¬(flowProgress 1 4 cfgC3 ≤ flowProgress 2 4 cfgC3) := by
  have hl : effectiveScreensList 4 cfgC3 = [0, 1, 3] := by decide
  have hj1 : jsIndexOf 1 [0, 1, 3] = 1 := by decide
  have hj2 : jsIndexOf 2 [0, 1, 3] = -1 := by decide
  have h1 : flowProgress 1 4 cfgC3 = 1/2 := by
    simp only [flowProgress, hl, hj1]
    norm_num
  have h2 : flowProgress 2 4 cfgC3 = 0 := by
    simp only [flowProgress, hl, hj2]
    norm_num
  refine ⟨h1, h2, ?_⟩
  rw [h1, h2]
  norm_num

/-- Claim C3 (amended): with 0 or 1 filtered members the fraction is `1`;
otherwise it is `max(0, indexOf currentIndex) / (filteredLength - 1)` where a
`currentIndex` absent from the filtered list gets `indexOf = -1` and is
clamped to `0`; monotonicity holds for indices that are members of the
filtered list (it fails at skipped indices, as the counterexample shows). -/
theorem c3_progress_amended (currentIndex totalScreens : Int) (cfg : FlowProgressIndicator) :
  ((effectiveScreensList totalScreens cfg).length ≤ 1 →
      flowProgress currentIndex totalScreens cfg = 1) ∧
  (1 < (effectiveScreensList totalScreens cfg).length →
      flowProgress currentIndex totalScreens cfg =
        ((max 0 (jsIndexOf currentIndex (effectiveScreensList totalScreens cfg)) : Int) : ℚ) /
          (((effectiveScreensList totalScreens cfg).length : ℚ) - 1)) ∧
  (currentIndex ∉ effectiveScreensList totalScreens cfg →
      1 < (effectiveScreensList totalScreens cfg).length →
      flowProgress currentIndex totalScreens cfg = 0) ∧
  (∀ i j : Int, i ∈ effectiveScreensList totalScreens cfg →
      j ∈ effectiveScreensList totalScreens cfg → i ≤ j →
      flowProgress i totalScreens cfg ≤ flowProgress j totalScreens cfg) := by
  have hpair := effectiveScreensList_pairwise totalScreens cfg
  refine ⟨?_, ?_, ?_, ?_⟩
  · intro h
    have hc : ¬(1 < ((effectiveScreensList totalScreens cfg).length : Int)) := by omega
    simp only [flowProgress, hc, if_false]
  · intro h
    have hc : 1 < ((effectiveScreensList totalScreens cfg).length : Int) := by omega
    simp only [flowProgress, hc, if_true]
    norm_cast
  · intro hmem hlen
    have hnone := posIn_eq_none_of_not_mem hmem
    have hc : 1 < ((effectiveScreensList totalScreens cfg).length : Int) := by omega
    simp only [flowProgress, jsIndexOf, hnone, hc, if_true]
    norm_num
  · intro i j hi hj hij
    by_cases hlen : 1 < (effectiveScreensList totalScreens cfg).length
    · have hc : 1 < ((effectiveScreensList totalScreens cfg).length : Int) := by omega
      rcases posIn_le _ hpair i j hi hj hij with ⟨a, b, hai, hbj, hab⟩
      simp only [flowProgress, jsIndexOf, hai, hbj, hc, if_true]
      have hd : (0 : ℚ) ≤ (((effectiveScreensList totalScreens cfg).length : Int) : ℚ) - 1 := by
        have h1 : (1 : ℚ) ≤ (((effectiveScreensList totalScreens cfg).length : Int) : ℚ) := by
          exact_mod_cast hc.le
        linarith
      have hmax : ∀ n : Nat, max 0 ((n : Int)) = (n : Int) := fun n =>
        max_eq_right (Int.natCast_nonneg n)
      rw [hmax a, hmax b]
      have hnum : ((a : Int) : ℚ) ≤ ((b : Int) : ℚ) := by exact_mod_cast hab
      exact div_le_div_of_nonneg_right hnum hd
    · have hc : ¬(1 < ((effectiveScreensList totalScreens cfg).length : Int)) := by omega
      simp only [flowProgress, hc, if_false]
      exact le_rfl

/-- Claim C3 amended, witnessed: a single-screen range yields `1`, and the
fraction is monotone across the filtered members `1` and `3`. -/
theorem c3_progress_amended_witness :
  flowProgress 0 1 ({} : FlowProgressIndicator) = 1 ∧
  flowProgress 1 4 cfgC3 ≤ flowProgress 3 4 cfgC3 := by
  constructor
  · exact (c3_progress_amended 0 1 {}).1 (by decide)
  · exact (c3_progress_amended 0 4 cfgC3).2.2.2 1 3 (by decide) (by decide) (by decide)

/-! ## Claim C4: checklist validation -/

/-- Claim C4 counterexample: field `f` holds the bare scalar `0`, which the
claim counts as `1` selection (so `minSelections = 1` would be satisfied),
yet validation marks `f` invalid — JavaScript truthiness counts a falsy
scalar as `0` selections. -/
theorem c4_checklist_counterexample :
  validateBlocks [chkBlock] dataC4 = ["f"] ∧
  lookupData dataC4 "f" = Option.some (Value.num 0) ∧
  claimedSelectionCount (lookupData dataC4 "f") = 1 ∧
  ¬(claimedSelectionCount (lookupData dataC4 "f") < 1) := by
  decide

/-- Claim C4 (amended): for a checklist block with `minSelections = m > 0` and
a nonempty `fieldName`, validation marks the field invalid exactly when the
selection count is below `m`, where the count is the array length for an
array, `1` for a truthy bare scalar (nonempty string or nonzero number) and
`0` when the value is absent or a falsy scalar (`''` or `0`). -/
theorem c4_checklist_amended (b : ContentBlock) (data : CollectedData) (m : Int) (f : String)
    (hty : b.type = ContentBlockType.checklist) (hm : b.content.minSelections = Option.some m)
    (hm2 : 0 < m) (hf : b.content.fieldName = Option.some f) (hf2 : ¬(f = "")) :
  (f ∈ validateBlocks [b] data ↔ (selectionCount (lookupData data f) : Int) < m) := by
  simp only [validateBlocks, blockErrors, hty, hm, hf, checklistError, inputError]
  by_cases hc : (selectionCount (lookupData data f) : Int) < m <;>
    simp [hc, hm2, hm2.ne', hf2]

/-- Claim C4 amended, witnessed: with no data collected the checklist field
`f` (requiring one selection) is invalid. -/
theorem c4_checklist_amended_witness :
  "f" ∈ validateBlocks [chkBlock] [] :=
  (c4_checklist_amended chkBlock [] 1 "f" rfl rfl (by norm_num) rfl (by decide)).mpr (by decide)

/-! ## Flow controller lemmas -/

/-- Applying a validation result never moves the current index. -/
theorem applyValidation_currentIndex (st : FlowState) (r : Option (List String)) :
    (applyValidation st r).currentIndex = st.currentIndex := by
  cases r <;> rfl

/-- Applying a validation result never emits events. -/
theorem applyValidation_log (st : FlowState) (r : Option (List String)) :
    (applyValidation st r).log = st.log := by
  cases r <;> rfl

/-- `navigateTo` never touches the validation-error set. -/
theorem navigateTo_validationErrors (cfg : FlowConfig) (st : FlowState) (t : Int) :
    (navigateTo cfg st t).validationErrors = st.validationErrors := by
  unfold navigateTo
  split <;> rfl

/-- `navigateTo` either keeps the index or lands strictly inside bounds. -/
theorem navigateTo_ci (cfg : FlowConfig) (st : FlowState) (t : Int) :
    (navigateTo cfg st t).currentIndex = st.currentIndex ∨
      (0 ≤ (navigateTo cfg st t).currentIndex ∧
        (navigateTo cfg st t).currentIndex < (cfg.screens.length : Int)) := by
  unfold navigateTo
  split
  next h => exact Or.inl rfl
  next h =>
    right
    push_neg at h
    simp only []
    exact ⟨by omega, by omega⟩

/-- `navigateTo` at an in-bounds target: the committed state and emissions. -/
theorem navigateTo_eq_of_inRange (cfg : FlowConfig) (st : FlowState) (t : Int)
    (h0 : 0 ≤ t) (h1 : t < (cfg.screens.length : Int)) :
    navigateTo cfg st t = { st with
      currentIndex := t,
      log := st.log ++
        [FlowEvent.screenCompleted ((getScreen cfg.screens st.currentIndex).map Screen.id),
          FlowEvent.animate (getTransition cfg st.currentIndex t)
            (decide (st.currentIndex < t))] } := by
  unfold navigateTo
  rw [if_neg (by omega)]

/-- `handleAction` on a gated action under failed validation stops at the
error-set update. -/
theorem handleAction_invalid (cfg : FlowConfig) (data : CollectedData) (st : FlowState)
    (a : ButtonAction) (hgate : needsValidationFor a = true)
    (hv : (validateCurrentScreen cfg.screens data st.currentIndex).2 = false) :
    handleAction cfg data st a =
      applyValidation st (validateCurrentScreen cfg.screens data st.currentIndex).1 := by
  simp [handleAction, hgate, hv]

/-- `handleAction` under passing validation dispatches the switch on the
validated state. -/
theorem handleAction_valid (cfg : FlowConfig) (data : CollectedData) (st : FlowState)
    (a : ButtonAction)
    (hv : (validateCurrentScreen cfg.screens data st.currentIndex).2 = true) :
    handleAction cfg data st a =
      dispatchAction cfg
        (if needsValidationFor a then
          applyValidation st (validateCurrentScreen cfg.screens data st.currentIndex).1
        else st) a := by
  simp [handleAction, hv]

/-- `handleAction` on an unvalidated action dispatches the switch directly. -/
theorem handleAction_nv (cfg : FlowConfig) (data : CollectedData) (st : FlowState)
    (a : ButtonAction) (hgate : needsValidationFor a = false) :
    handleAction cfg data st a = dispatchAction cfg st a := by
  simp [handleAction, hgate]

/-- Every switch branch either keeps the index or goes through `navigateTo`. -/
theorem dispatchAction_ci_or_nav (cfg : FlowConfig) (st1 : FlowState) (a : ButtonAction) :
    (dispatchAction cfg st1 a).currentIndex = st1.currentIndex ∨
      ∃ t, dispatchAction cfg st1 a = navigateTo cfg st1 t := by
  cases a with
  | next =>
    simp only [dispatchAction]
    split
    · exact Or.inr ⟨_, rfl⟩
    · exact Or.inl rfl
  | previous =>
    simp only [dispatchAction]
    split
    · exact Or.inr ⟨_, rfl⟩
    · exact Or.inl rfl
  | screen sid =>
    simp only [dispatchAction]
    cases hfi : cfg.screens.findIdx? (fun s => s.id == sid) with
    | some n => exact Or.inr ⟨_, rfl⟩
    | none => exact Or.inl rfl
  | complete => exact Or.inl rfl
  | custom ident => exact Or.inl rfl

/-- An id matching no screen is not found by the index lookup. -/
theorem findIdx?_none_of_forall (sid : String) :
    ∀ (l : List Screen), (∀ s ∈ l, ¬(s.id = sid)) → ∀ i,
      List.findIdx? (fun s => s.id == sid) l i = Option.none
  | [], _, _ => rfl
  | x :: xs, h, i => by
    have hx : (x.id == sid) = false := by
      simp only [beq_eq_false_iff_ne, ne_eq]
      exact h x (List.mem_cons_self x xs)
    rw [List.findIdx?_cons, if_neg (by simp [hx])]
    exact findIdx?_none_of_forall sid xs (fun s hs => h s (List.mem_cons_of_mem x hs)) (i + 1)

/-! ## Claim C5: validation gating of actions -/

/-- Claim C5: `next`, `complete` and `screen` actions run current-screen
validation first, and when it fails the state only receives the error-set
update — the index is unchanged and nothing is emitted (no completion, no
navigation); `previous` and `custom` actions never touch the error set. -/
theorem c5_validation_gating (cfg : FlowConfig) (data : CollectedData) (st : FlowState) :
  ((validateCurrentScreen cfg.screens data st.currentIndex).2 = false →
    ∀ a : ButtonAction,
      (a = ButtonAction.next ∨ a = ButtonAction.complete ∨ ∃ sid, a = ButtonAction.screen sid) →
      handleAction cfg data st a =
          applyValidation st (validateCurrentScreen cfg.screens data st.currentIndex).1 ∧
        (handleAction cfg data st a).currentIndex = st.currentIndex ∧
        (handleAction cfg data st a).log = st.log) ∧
  ((handleAction cfg data st ButtonAction.previous).validationErrors = st.validationErrors ∧
    ∀ ident, (handleAction cfg data st (ButtonAction.custom ident)).validationErrors =
      st.validationErrors) := by
  constructor
  · intro hv a ha
    have hgate : needsValidationFor a = true := by
      rcases ha with rfl | rfl | ⟨sid, rfl⟩ <;> rfl
    have he := handleAction_invalid cfg data st a hgate hv
    exact ⟨he, by rw [he, applyValidation_currentIndex],
      by rw [he, applyValidation_log]⟩
  · constructor
    · rw [handleAction_nv cfg data st ButtonAction.previous rfl]
      simp only [dispatchAction]
      split
      · exact navigateTo_validationErrors cfg st _
      · rfl
    · intro ident
      rw [handleAction_nv cfg data st (ButtonAction.custom ident) rfl]
      rfl

/-- Claim C5, witnessed: on the screen with a required uncollected `email`
field, `next` fails validation and changes neither index nor log, while
`previous` leaves the error set alone. -/
theorem c5_validation_gating_witness :
  (validateCurrentScreen cfgV.screens [] stV.currentIndex).2 = false ∧
  (handleAction cfgV [] stV ButtonAction.next).currentIndex = stV.currentIndex ∧
  (handleAction cfgV [] stV ButtonAction.next).log = stV.log ∧
  (handleAction cfgV [] stV ButtonAction.previous).validationErrors = stV.validationErrors := by
  have hv : (validateCurrentScreen cfgV.screens [] stV.currentIndex).2 = false := by decide
  have h := c5_validation_gating cfgV [] stV
  have h1 := h.1 hv ButtonAction.next (Or.inl rfl)
  exact ⟨hv, h1.2.1, h1.2.2, h.2.1⟩

/-! ## Claim C7: transition resolution -/

/-- Claim C7: the transition for a navigation is the matching override
entry's transition when the table has one (exact from/to id match);
otherwise the source screen's declared default; otherwise `fade`. -/
theorem c7_transition_resolution (cfg : FlowConfig) (fromIndex toIndex : Int) :
  (∀ entry, overrideEntry cfg.transitions (getScreen cfg.screens fromIndex)
      (getScreen cfg.screens toIndex) = Option.some entry →
    getTransition cfg fromIndex toIndex = entry.transition) ∧
  (overrideEntry cfg.transitions (getScreen cfg.screens fromIndex)
      (getScreen cfg.screens toIndex) = Option.none →
    (∀ s d, getScreen cfg.screens fromIndex = Option.some s →
        s.transition = Option.some d → getTransition cfg fromIndex toIndex = d) ∧
    ((getScreen cfg.screens fromIndex = Option.none ∨
        ∃ s, getScreen cfg.screens fromIndex = Option.some s ∧
          s.transition = Option.none) →
      getTransition cfg fromIndex toIndex = ScreenTransition.fade)) := by
  constructor
  · intro entry hentry
    simp [getTransition, hentry]
  · intro hnone
    constructor
    · intro s d hs hd
      simp only [getTransition]
      rw [hnone, hs]
      show s.transition.getD ScreenTransition.fade = d
      rw [hd, Option.getD_some]
    · intro hcase
      rcases hcase with hs | ⟨s, hs, hd⟩
      · simp only [getTransition]
        rw [hnone, hs]
      · simp only [getTransition]
        rw [hnone, hs]
        show s.transition.getD ScreenTransition.fade = ScreenTransition.fade
        rw [hd, Option.getD_none]

/-- Claim C7, witnessed with the spec's scenario D: the `A -> B` override says
`scale`, and navigating from `A` (whose own default is `fade`) to `B`
resolves `scale`. -/
theorem c7_transition_resolution_witness :
  screenA.transition = Option.some ScreenTransition.fade ∧
  getTransition cfgD 0 1 = ScreenTransition.scale := by
  refine ⟨rfl, ?_⟩
  exact (c7_transition_resolution cfgD 0 1).1 overrideAB (by decide)

/-! ## Claim C8: index bounds invariant -/

/-- Shape analysis of `handleAction`: the result either keeps the index of a
state whose index equals the input's, or is a `navigateTo` from such a state. -/
theorem handleAction_shapes (cfg : FlowConfig) (data : CollectedData) (st : FlowState)
    (a : ButtonAction) :
    ∃ base : FlowState, base.currentIndex = st.currentIndex ∧
      ((handleAction cfg data st a).currentIndex = base.currentIndex ∨
        ∃ t, handleAction cfg data st a = navigateTo cfg base t) := by
  cases hv : (validateCurrentScreen cfg.screens data st.currentIndex).2 with
  | false =>
    cases hgate : needsValidationFor a with
    | true =>
      refine ⟨applyValidation st (validateCurrentScreen cfg.screens data st.currentIndex).1,
        applyValidation_currentIndex st _, Or.inl ?_⟩
      rw [handleAction_invalid cfg data st a hgate hv]
    | false =>
      refine ⟨st, rfl, ?_⟩
      rw [handleAction_nv cfg data st a hgate]
      exact dispatchAction_ci_or_nav cfg st a
  | true =>
    refine ⟨if needsValidationFor a then
        applyValidation st (validateCurrentScreen cfg.screens data st.currentIndex).1
      else st, ?_, ?_⟩
    · split
      · exact applyValidation_currentIndex st _
      · rfl
    · rw [handleAction_valid cfg data st a hv]
      exact dispatchAction_ci_or_nav cfg _ a

/-- A single action keeps the index inside `[0, screens.length)`. -/
theorem handleAction_bounds (cfg : FlowConfig) (data : CollectedData) (st : FlowState)
    (a : ButtonAction) (h0 : 0 ≤ st.currentIndex)
    (h1 : st.currentIndex < (cfg.screens.length : Int)) :
    0 ≤ (handleAction cfg data st a).currentIndex ∧
      (handleAction cfg data st a).currentIndex < (cfg.screens.length : Int) := by
  rcases handleAction_shapes cfg data st a with ⟨base, hbase, hcase | ⟨t, ht⟩⟩
  · rw [hcase, hbase]; exact ⟨h0, h1⟩
  · rw [ht]
    rcases navigateTo_ci cfg base t with h | h
    · rw [h, hbase]; exact ⟨h0, h1⟩
    · exact h

/-- A single call (action or direct navigation) keeps the index in bounds. -/
theorem stepCall_bounds (cfg : FlowConfig) (data : CollectedData) (st : FlowState)
    (c : FlowCall) (h0 : 0 ≤ st.currentIndex)
    (h1 : st.currentIndex < (cfg.screens.length : Int)) :
    0 ≤ (stepCall cfg data st c).currentIndex ∧
      (stepCall cfg data st c).currentIndex < (cfg.screens.length : Int) := by
  cases c with
  | act a => exact handleAction_bounds cfg data st a h0 h1
  | nav t =>
    rcases navigateTo_ci cfg st t with h | h
    · rw [stepCall, h]; exact ⟨h0, h1⟩
    · exact h

/-- Any sequence of calls keeps the index in bounds. -/
theorem runCalls_bounds (cfg : FlowConfig) (data : CollectedData) :
    ∀ (calls : List FlowCall) (st : FlowState), 0 ≤ st.currentIndex →
      st.currentIndex < (cfg.screens.length : Int) →
      0 ≤ (runCalls cfg data st calls).currentIndex ∧
        (runCalls cfg data st calls).currentIndex < (cfg.screens.length : Int)
  | [], _, h0, h1 => ⟨h0, h1⟩
  | c :: cs, st, h0, h1 => by
    rcases stepCall_bounds cfg data st c h0 h1 with ⟨g0, g1⟩
    exact runCalls_bounds cfg data cs (stepCall cfg data st c) g0 g1

/-- Claim C8: starting in range, every sequence of `handleAction` and
`navigateTo` calls keeps `currentIndex` inside `[0, screens.length)`, and
`navigateTo` at any out-of-bounds target is a strict no-op. -/
theorem c8_navigation_bounds (cfg : FlowConfig) (data : CollectedData) (st : FlowState)
    (calls : List FlowCall) (h0 : 0 ≤ st.currentIndex)
    (h1 : st.currentIndex < (cfg.screens.length : Int)) :
    (0 ≤ (runCalls cfg data st calls).currentIndex ∧
      (runCalls cfg data st calls).currentIndex < (cfg.screens.length : Int)) ∧
    (∀ t : Int, (t < 0 ∨ (cfg.screens.length : Int) ≤ t) → navigateTo cfg st t = st) := by
  refine ⟨runCalls_bounds cfg data calls st h0 h1, ?_⟩
  intro t ht
  unfold navigateTo
  rw [if_pos ht]

/-- Claim C8, witnessed: on a two-screen flow, jumping to `5`, pressing
`next` and jumping to `-1` leaves the index in `[0, 2)`. -/
theorem c8_navigation_bounds_witness :
  0 ≤ (runCalls cfg8 [] st8 calls8).currentIndex ∧
  (runCalls cfg8 [] st8 calls8).currentIndex < (cfg8.screens.length : Int) :=
  (c8_navigation_bounds cfg8 [] st8 calls8 (by decide) (by decide)).1

/-! ## Claim C9: screen action with unknown id -/

/-- Claim C9 counterexample: on a current screen with no blocks array, a
`screen` action whose id matches nothing *is* state-preserving — validation
early-returns without replacing the stale error set `{"email"}`. -/
theorem c9_unknown_screen_counterexample :
  handleAction cfgOne [] stC9 (ButtonAction.screen "ghost") = stC9 ∧
  stC9.validationErrors = ["email"] := by
  decide

/-- Claim C9 (amended): a `screen` action whose id matches no screen leaves
`currentIndex` and the event log unchanged; when the current screen has a
blocks array, validation replaces `validationErrors` wholesale (the failing
field names, or the empty list when validation passes) before the failed id
lookup; when it has none, the action is a complete no-op and the stale error
set survives. -/
theorem c9_unknown_screen_amended (cfg : FlowConfig) (data : CollectedData) (st : FlowState)
    (sid : String) (h : ∀ s ∈ cfg.screens, ¬(s.id = sid)) :
    (handleAction cfg data st (ButtonAction.screen sid)).currentIndex = st.currentIndex ∧
    (handleAction cfg data st (ButtonAction.screen sid)).log = st.log ∧
    (∀ bs, currentBlocks cfg.screens st.currentIndex = Option.some bs →
      (handleAction cfg data st (ButtonAction.screen sid)).validationErrors =
        validateBlocks bs data) ∧
    (currentBlocks cfg.screens st.currentIndex = Option.none →
      handleAction cfg data st (ButtonAction.screen sid) = st) := by
  have hfind : cfg.screens.findIdx? (fun s => s.id == sid) = Option.none :=
    findIdx?_none_of_forall sid cfg.screens h 0
  have he : handleAction cfg data st (ButtonAction.screen sid) =
      applyValidation st (validateCurrentScreen cfg.screens data st.currentIndex).1 := by
    cases hv : (validateCurrentScreen cfg.screens data st.currentIndex).2 with
    | false => exact handleAction_invalid cfg data st _ rfl hv
    | true =>
      rw [handleAction_valid cfg data st _ hv]
      simp [dispatchAction, hfind, needsValidationFor]
  refine ⟨by rw [he, applyValidation_currentIndex], by rw [he, applyValidation_log], ?_, ?_⟩
  · intro bs hbs
    rw [he]
    simp [validateCurrentScreen, hbs, applyValidation]
  · intro hbs
    rw [he]
    simp [validateCurrentScreen, hbs, applyValidation]

/-- Claim C9 amended, witnessed: on the screen with a blocks array, the
unknown-id `screen` action replaces the stale error set with the current
failing fields and stays on the same index. -/
theorem c9_unknown_screen_amended_witness :
  (handleAction cfgV [] stV (ButtonAction.screen "ghost")).validationErrors =
      validateBlocks [inputBlk] [] ∧
  (handleAction cfgV [] stV (ButtonAction.screen "ghost")).currentIndex = stV.currentIndex := by
  have h := c9_unknown_screen_amended cfgV [] stV "ghost"
    (by intro s hs; simp [cfgV] at hs; subst hs; decide)
  exact ⟨h.2.2.1 [inputBlk] rfl, h.1⟩

/-! ## Claim C10: in-bounds self-navigation -/

/-- Claim C10: a validated `screen` action resolving to the current in-bounds
index is accepted by `navigateTo`: it emits `screen_completed` for the
current screen and replays the resolved transition with `isForward = false`,
while `currentIndex` keeps its value. -/
theorem c10_self_navigation (cfg : FlowConfig) (data : CollectedData) (st : FlowState)
    (sid : String) (n : Nat)
    (hok : (validateCurrentScreen cfg.screens data st.currentIndex).2 = true)
    (hfind : cfg.screens.findIdx? (fun s => s.id == sid) = Option.some n)
    (hn : (n : Int) = st.currentIndex)
    (hlo : 0 ≤ st.currentIndex) (hhi : st.currentIndex < (cfg.screens.length : Int)) :
    (handleAction cfg data st (ButtonAction.screen sid)).currentIndex = st.currentIndex ∧
    (handleAction cfg data st (ButtonAction.screen sid)).log =
      st.log ++
        [FlowEvent.screenCompleted ((getScreen cfg.screens st.currentIndex).map Screen.id),
          FlowEvent.animate (getTransition cfg st.currentIndex st.currentIndex) false] := by
  have he : handleAction cfg data st (ButtonAction.screen sid) =
      navigateTo cfg
        (applyValidation st (validateCurrentScreen cfg.screens data st.currentIndex).1)
        (n : Int) := by
    rw [handleAction_valid cfg data st _ hok]
    simp [dispatchAction, hfind, needsValidationFor]
  rw [he, hn, navigateTo_eq_of_inRange cfg _ st.currentIndex hlo hhi]
  constructor
  · rfl
  · simp [applyValidation_log, applyValidation_currentIndex, lt_irrefl]

/-- Claim C10, witnessed: on a one-screen flow, `screen "s0"` from screen
`s0` emits `screen_completed` for `s0` and replays `fade` backwards while
the index stays `0`. -/
theorem c10_self_navigation_witness :
  (handleAction cfgOne [] st10 (ButtonAction.screen "s0")).currentIndex = st10.currentIndex ∧
  (handleAction cfgOne [] st10 (ButtonAction.screen "s0")).log =
    st10.log ++ [FlowEvent.screenCompleted (Option.some "s0"),
      FlowEvent.animate ScreenTransition.fade false] := by
  have h := c10_self_navigation cfgOne [] st10 "s0" 0 (by decide) (by decide) (by decide)
    (by decide) (by decide)
  exact ⟨h.1, by rw [h.2]; rfl⟩

end Sequence
